import Mathlib

/-!
Shallow embedding of `pyrealtime/layer.py` and verification of the spec's
claims about it.

Modelling conventions:
- A Python value that may be `None` is an `Option`; `none` is the "no value"
  marker.
- A `multiprocessing.Queue` receive-queue is a `List` holding its items in
  FIFO order (front = next to be dequeued); `put` appends at the back.
- A Python `dict` (both the port maps and a structured emitted value) is an
  association list in insertion order; lookup returns the first binding,
  and registration only ever inserts absent keys, so within one map keys
  are unique.
- A method that can `raise` is a function into `Except String _`; where the
  claim needs the state visible on the error path (the raise happens before
  any mutation), the function returns the state alongside the result.
-/

namespace PyRealTime

/-- Class `Port` from layer.py: the fan-out output channel.  `out_queues` is the
list of subscriber receive-queues, each a FIFO list of delivered items. -/
structure Port (α : Type) where
  out_queues : List (List α)
deriving DecidableEq

/-- Constructor `Port()`: no subscriber queues yet. -/
def Port.empty {α : Type} : Port α := ⟨[]⟩

/-- Method `Port.get_output`: create a fresh empty receive-queue, append it to
`out_queues`, and return it (modelled as the index of the new queue). -/
def Port.get_output {α : Type} (p : Port α) : Port α × Nat :=
  ({ out_queues := p.out_queues ++ [[]] }, p.out_queues.length)

/-- Method `Port.handle_output(data)`: if `data is not None`, put it on every
subscriber queue; otherwise do nothing. -/
def Port.handle_output {α : Type} (p : Port α) (data : Option α) : Port α :=
  match data with
  | none => p
  | some v => { out_queues := p.out_queues.map (fun q => q ++ [v]) }

/-- Emitting a whole sequence of values (each possibly the `None` marker)
through `Port.handle_output`, left to right. -/
def Port.emitSeq {α : Type} (p : Port α) (vs : List (Option α)) : Port α :=
  vs.foldl Port.handle_output p

theorem Port.emitSeq_nil {α : Type} (p : Port α) : Port.emitSeq p [] = p := rfl

theorem Port.emitSeq_cons {α : Type} (p : Port α) (v : Option α) (vs : List (Option α)) :
    Port.emitSeq p (v :: vs) = Port.emitSeq (p.handle_output v) vs := rfl

/-- Core fan-out lemma: after emitting the sequence `vs`, every subscriber
queue that existed beforehand has received exactly the non-`None` values of
`vs`, in emission order, appended behind what it already held. -/
theorem Port.emitSeq_out_queues {α : Type} (p : Port α) (vs : List (Option α)) :
    (Port.emitSeq p vs).out_queues
      = p.out_queues.map (fun q => q ++ vs.filterMap id) := by
  induction vs generalizing p with
  | nil => simp [Port.emitSeq]
  | cons v rest ih =>
    rw [Port.emitSeq_cons, ih]
    cases v with
    | none => simp [Port.handle_output]
    | some x =>
      simp [Port.handle_output, List.map_map, Function.comp_def]

theorem Port.emitSeq_length {α : Type} (p : Port α) (vs : List (Option α)) :
    (Port.emitSeq p vs).out_queues.length = p.out_queues.length := by
  rw [Port.emitSeq_out_queues]; simp

/-- C1: for every Channel (`Port`) and every sequence of values passed to
`handle_output`, every receive-queue subscribed before the emissions receives
exactly the non-marker values of the sequence, in emission order, with no
drops and no reordering, whatever the number of subscribers; and emitting the
`None` marker enqueues nothing at any subscriber. -/
theorem channel_delivers_exactly_in_order (α : Type) (p : Port α) (vs : List (Option α)) :
    (Port.emitSeq p vs).out_queues
        = p.out_queues.map (fun q => q ++ vs.filterMap id)
      ∧ Port.handle_output p none = p :=
  ⟨Port.emitSeq_out_queues p vs, rfl⟩

/-- C9: a receive-queue created by `get_output` after the sequence `vs` has
already been emitted starts empty (none of the earlier values is replayed),
and after the further emissions `ws` it holds exactly the non-marker values
of `ws`, in order. -/
theorem late_subscriber_no_replay (α : Type) (p : Port α) (vs ws : List (Option α)) :
    ((Port.emitSeq p vs).get_output).1.out_queues[((Port.emitSeq p vs).get_output).2]?
        = some []
      ∧ (Port.emitSeq ((Port.emitSeq p vs).get_output).1 ws).out_queues[((Port.emitSeq p vs).get_output).2]?
        = some (ws.filterMap id) := by
  constructor
  · simp [Port.get_output]
  · rw [Port.emitSeq_out_queues]
    simp [Port.get_output]

/-! ## Control-signal draining (`BaseLayer.get_signal`) -/

/-- The part of a `BaseLayer`'s state that `get_signal` touches: the stored
"current signal" snapshot `self.signal`. -/
structure SigLayer (σ : Type) where
  signal : Option σ
deriving DecidableEq

/-- The `while not self.signal_in.empty()` loop body of `get_signal`:
`self.signal = self.signal_in.get(); self.handle_signal(self.signal)`.
Consumes the queued messages front-first, recording each `handle_signal`
dispatch in order. -/
def drainLoop {σ : Type} : List σ → Option σ → List σ → Option σ × List σ
  | [], sig, handled => (sig, handled)
  | x :: rest, _, handled => drainLoop rest (some x) (handled ++ [x])

/-- Method `BaseLayer.get_signal`: first `self.signal = None`, then, when a control
input is wired (`signal_in` is `some` queue), drain everything currently
queued.  Returns the updated layer state and the ordered list of messages
dispatched to `handle_signal`. -/
def BaseLayer.get_signal {σ : Type} (st : SigLayer σ) (signal_in : Option (List σ)) :
    SigLayer σ × List σ :=
  let st1 : SigLayer σ := { st with signal := none }
  match signal_in with
  | none => (st1, [])
  | some q =>
    let r := drainLoop q st1.signal []
    ({ st1 with signal := r.1 }, r.2)

theorem drainLoop_eq {σ : Type} (q : List σ) (sig : Option σ) (handled : List σ) :
    drainLoop q sig handled = ((q.getLast?).or sig, handled ++ q) := by
  induction q generalizing sig handled with
  | nil => simp [drainLoop]
  | cons x rest ih =>
    rw [drainLoop, ih]
    cases rest with
    | nil => simp [drainLoop]
    | cons y t =>
      simp only [List.getLast?_cons_cons, List.append_assoc, List.singleton_append]
      cases hz : (y :: t).getLast? with
      | none => exact absurd (List.getLast?_eq_none_iff.mp hz) (List.cons_ne_nil y t)
      | some z => rfl

/-- C3: draining a control input holding the queue `q` (any `K = q.length ≥ 0`
messages) dequeues all of them, dispatches each to `handle_signal` in enqueue
order, and leaves the current-signal snapshot equal to the last queued message
(for `K ≥ 1`, i.e. `q.getLast? = some _`; `none` when `K = 0`).  The drain is a
total function of what is already queued: it never waits for more messages. -/
theorem drain_dispatches_all_in_order (σ : Type) (st : SigLayer σ) (q : List σ) :
    BaseLayer.get_signal st (some q) = (⟨q.getLast?⟩, q) := by
  rw [BaseLayer.get_signal]
  simp [drainLoop_eq]

/-- C4 counterexample: drain a queue holding the single message `5`, then
drain again with nothing queued.  The claim says the second (empty) drain
leaves the stored signal unchanged at `some 5`; the code resets it to `None`
(`self.signal = None` runs before the drain loop), so the snapshot after the
second drain is `none`, not `some 5`. -/
theorem empty_drain_resets_signal_counterexample :
    (BaseLayer.get_signal (⟨none⟩ : SigLayer Nat) (some [5])).1.signal = some 5
      ∧ (BaseLayer.get_signal
            (BaseLayer.get_signal (⟨none⟩ : SigLayer Nat) (some [5])).1 (some [])).1.signal
          = none
      ∧ ¬ (BaseLayer.get_signal
            (BaseLayer.get_signal (⟨none⟩ : SigLayer Nat) (some [5])).1 (some [])).1.signal
          = some 5 := by
  decide

/-- C4 amended: after any drain of the control input, the current-signal
snapshot equals the last message dequeued in that very drain, or `none` when
that drain found the queue empty (or no control input is wired); the
previously stored value never persists across a drain, because `get_signal`
resets `self.signal` to `None` before draining. -/
theorem signal_snapshot_is_last_of_current_drain (σ : Type) (st : SigLayer σ)
    (signal_in : Option (List σ)) :
    (BaseLayer.get_signal st signal_in).1.signal
      = match signal_in with
        | none => none
        | some q => q.getLast? := by
  cases signal_in with
  | none => rfl
  | some q =>
    rw [BaseLayer.get_signal]
    simp [drainLoop_eq]

/-! ## The main loop (`BaseLayer.process_loop`)

The loop's environment is an oracle list of iterations.  Each entry gives,
for one arrival at the top of the `while`, the value the shared stop event
shows there (`Bool`), the item `get_input` then returns (`Option δ`, `none`
being the "no value" marker), and the drain `get_signal` would perform
(`Option (List σ)`: `none` when no control input is wired, otherwise the
messages queued at that moment).  The transform is a parameter
`tr : δ → Option δ`, matching `transform` returning a value or `None`. -/

/-- The `BaseLayer` state the loop reads and writes, plus event traces:
`postInits` records each `post_init` call's argument, `handledSignals` each
`handle_signal` dispatch, `emitted` each value passed to `handle_output`. -/
structure ProcState (δ σ : Type) where
  is_first : Bool
  signal : Option σ
  postInits : List δ
  handledSignals : List σ
  emitted : List δ
deriving DecidableEq

/-- Constructor `BaseLayer.__init__`: `self.signal = None; self.is_first = True`. -/
def ProcState.init {δ σ : Type} : ProcState δ σ :=
  ⟨true, none, [], [], []⟩

/-- One body of `process_loop`'s `while` (after the stop-event test):
fetch, skip on the `None` marker, drain signals, one-time `post_init` on the
first non-skipped iteration, transform, skip a `None` result, emit. -/
def process_iter {δ σ : Type} (tr : δ → Option δ) (st : ProcState δ σ)
    (inp : Option δ × Option (List σ)) : ProcState δ σ :=
  match inp.1 with
  | none => st
  | some d =>
    let sg := BaseLayer.get_signal ⟨st.signal⟩ inp.2
    let st1 : ProcState δ σ :=
      { st with signal := sg.1.signal, handledSignals := st.handledSignals ++ sg.2 }
    let st2 : ProcState δ σ :=
      if st1.is_first then
        { st1 with postInits := st1.postInits ++ [d], is_first := false }
      else st1
    match tr d with
    | none => st2
    | some r => { st2 with emitted := st2.emitted ++ [r] }

/-- The iterations of `process_loop` actually executed, ignoring the stop
event (used to state what a run performs). -/
def runIters {δ σ : Type} (tr : δ → Option δ) (st : ProcState δ σ)
    (l : List (Option δ × Option (List σ))) : ProcState δ σ :=
  l.foldl (process_iter tr) st

/-- Method `BaseLayer.process_loop`: `while not self.stop_event.is_set(): ...`.
Each oracle entry's first component is the stop event's value observed at
the top of the loop; a `true` observation exits the loop (the layer reaches
its stopped state). -/
def process_loop {δ σ : Type} (tr : δ → Option δ) (st : ProcState δ σ) :
    List (Bool × Option δ × Option (List σ)) → ProcState δ σ
  | [] => st
  | (stop, inp) :: rest =>
    if stop then st else process_loop tr (process_iter tr st inp) rest

theorem process_iter_is_first_mono {δ σ : Type} (tr : δ → Option δ)
    (st : ProcState δ σ) (inp : Option δ × Option (List σ))
    (h : st.is_first = false) : (process_iter tr st inp).is_first = false := by
  rcases inp with ⟨d, si⟩
  cases d with
  | none => exact h
  | some d =>
    simp only [process_iter, h, Bool.false_eq_true, if_false]
    cases tr d <;> simp [h]

theorem process_iter_postInits_of_not_first {δ σ : Type} (tr : δ → Option δ)
    (st : ProcState δ σ) (inp : Option δ × Option (List σ))
    (h : st.is_first = false) : (process_iter tr st inp).postInits = st.postInits := by
  rcases inp with ⟨d, si⟩
  cases d with
  | none => rfl
  | some d =>
    simp only [process_iter, h, Bool.false_eq_true, if_false]
    cases tr d <;> simp

theorem runIters_postInits_of_not_first {δ σ : Type} (tr : δ → Option δ)
    (st : ProcState δ σ) (l : List (Option δ × Option (List σ)))
    (h : st.is_first = false) : (runIters tr st l).postInits = st.postInits := by
  induction l generalizing st with
  | nil => rfl
  | cons it rest ih =>
    have h1 := process_iter_is_first_mono tr st it h
    have h2 := process_iter_postInits_of_not_first tr st it h
    calc (runIters tr st (it :: rest)).postInits
        = (runIters tr (process_iter tr st it) rest).postInits := rfl
      _ = (process_iter tr st it).postInits := ih _ h1
      _ = st.postInits := h2

theorem runIters_postInits_of_first {δ σ : Type} (tr : δ → Option δ)
    (st : ProcState δ σ) (l : List (Option δ × Option (List σ)))
    (h : st.is_first = true) :
    (runIters tr st l).postInits
      = st.postInits ++ (l.filterMap Prod.fst).take 1 := by
  induction l generalizing st with
  | nil => simp [runIters]
  | cons it rest ih =>
    rcases it with ⟨d, si⟩
    cases d with
    | none =>
      have : process_iter tr st (none, si) = st := rfl
      calc (runIters tr st ((none, si) :: rest)).postInits
          = (runIters tr st rest).postInits := by
              simp only [runIters, List.foldl_cons, this]
        _ = st.postInits ++ (rest.filterMap Prod.fst).take 1 := ih st h
        _ = st.postInits ++ (((none, si) :: rest).filterMap Prod.fst).take 1 := by
              simp [List.filterMap_cons]
    | some d =>
      have hfirst : (process_iter tr st (some d, si)).is_first = false := by
        simp only [process_iter, h, if_true]
        cases tr d <;> simp
      have hpost : (process_iter tr st (some d, si)).postInits = st.postInits ++ [d] := by
        simp only [process_iter, h, if_true]
        cases tr d <;> simp
      calc (runIters tr st ((some d, si) :: rest)).postInits
          = (runIters tr (process_iter tr st (some d, si)) rest).postInits := rfl
        _ = (process_iter tr st (some d, si)).postInits :=
              runIters_postInits_of_not_first tr _ rest hfirst
        _ = st.postInits ++ [d] := hpost
        _ = st.postInits ++ ((((some d), si) :: rest).filterMap Prod.fst).take 1 := by
              simp [List.filterMap_cons]

/-- C5: over any run of main-loop iterations from the freshly constructed
state, `post_init` is invoked exactly once in the whole run — on the first
iteration whose fetched input is not the `None` marker, with that fetched
item as its argument — and never again afterwards; iterations that fetch the
marker do not trigger it (and a run that only ever fetches the marker never
calls it at all). -/
theorem post_init_fires_exactly_once (δ σ : Type) (tr : δ → Option δ)
    (l : List (Option δ × Option (List σ))) :
    (runIters tr (ProcState.init (δ := δ) (σ := σ)) l).postInits
      = (l.filterMap Prod.fst).take 1 := by
  have h := runIters_postInits_of_first tr (ProcState.init (δ := δ) (σ := σ)) l rfl
  simpa [ProcState.init] using h

/-- C8: the loop executes exactly the iterations before the first loop-top
observation of the stop event being set: once the shared cancellation signal
is observed set at the top of the loop, no further fetch / drain / transform
/ emit cycle runs and the loop exits (the already-running iteration, if the
observation cut the oracle short, has completed as part of the prefix).
`process_loop` is a total function, so the loop terminates there. -/
theorem no_iteration_after_stop (δ σ : Type) (tr : δ → Option δ)
    (st : ProcState δ σ) (iters : List (Bool × Option δ × Option (List σ))) :
    process_loop tr st iters
      = runIters tr st ((iters.takeWhile (fun it => !it.1)).map Prod.snd) := by
  induction iters generalizing st with
  | nil => rfl
  | cons it rest ih =>
    rcases it with ⟨stop, inp⟩
    cases stop with
    | true => simp [process_loop, List.takeWhile, runIters]
    | false =>
      simp only [process_loop, Bool.false_eq_true, if_false, List.takeWhile]
      rw [ih]
      rfl

/-! ## Multi-port output (`MultiOutputMixin`)

Python dicts are association lists in insertion order.  `alookup` is dict
lookup (`d[k]`, and `isSome` of it is `k in d`); `updateEntry` is the effect
of mutating in place the `Port` object stored under a key (every binding of
that key sees the mutation, but registration keeps keys unique within one
map, so at most one binding exists per map). -/

/-- Dict lookup: the value bound to `k`, or `none` when `k` is absent. -/
def alookup {β : Type} (k : String) : List (String × β) → Option β
  | [] => none
  | (k1, v) :: rest => if k1 = k then some v else alookup k rest

/-- In-place mutation of the object stored under key `k`. -/
def updateEntry {β : Type} (m : List (String × β)) (k : String) (f : β → β) :
    List (String × β) :=
  m.map (fun e => if e.1 = k then (e.1, f e.2) else e)

/-- A structured emitted value: a dict whose values may themselves be the
Python `None` (hence `Option α`). -/
def StructuredValue (α : Type) : Type := List (String × Option α)

/-- The `MultiOutputMixin` state: `self.ports` (explicitly declared),
`self.auto_ports` (auto-created), and the primary output `self.out_port`
inherited from `BaseOutputLayer` (its queues carry whole structured
values). -/
structure MultiState (α : Type) where
  ports : List (String × Port α)
  auto_ports : List (String × Port α)
  out_port : Port (StructuredValue α)

/-- Method `MultiOutputMixin._register_port(port, auto)`: pick the map selected by
`auto`, raise `NameError` if the name is already a key there, else bind the
name to a fresh `Port()`.  The raise precedes any mutation, so the state is
returned alongside the result and is unchanged on the error path. -/
def register_port {α : Type} (s : MultiState α) (port : String) (auto : Bool) :
    Except String Unit × MultiState α :=
  if auto = false then
    match alookup port s.ports with
    | some _ => (Except.error ("Port " ++ port ++ " already exists"), s)
    | none => (Except.ok (), { s with ports := s.ports ++ [(port, Port.empty)] })
  else
    match alookup port s.auto_ports with
    | some _ => (Except.error ("Port " ++ port ++ " already exists"), s)
    | none => (Except.ok (), { s with auto_ports := s.auto_ports ++ [(port, Port.empty)] })

/-- Method `MultiOutputMixin.get_port(port)`: declared map first, then auto map,
else auto-create via `_register_port(port, auto=True)` and look again; a
final miss raises `NameError`.  Returns the (possibly grown) state and the
resolved `Port`. -/
def get_port {α : Type} (s : MultiState α) (port : String) :
    Except String (MultiState α × Port α) :=
  match alookup port s.ports with
  | some p => Except.ok (s, p)
  | none =>
    match alookup port s.auto_ports with
    | some p => Except.ok (s, p)
    | none =>
      match register_port s port true with
      | (Except.error e, _) => Except.error e
      | (Except.ok _, s1) =>
        match alookup port s1.auto_ports with
        | some p => Except.ok (s1, p)
        | none => Except.error ("Port " ++ port ++ " does not exist")

/-- One step of the `for key in list(self.ports.keys()) + list(self.auto_ports.keys())`
loop in `MultiOutputMixin.handle_output`: resolve `key` (declared map first),
raise `NameError` if it is in neither map, and if `key in data`, emit
`data[key]` on the resolved port (mutating it in place in its map). -/
def dispatchKey {α : Type} (data : StructuredValue α) (s : MultiState α)
    (key : String) : Except String (MultiState α) :=
  match alookup key s.ports with
  | some _ =>
    match alookup key data with
    | some v =>
      Except.ok { s with ports := updateEntry s.ports key (fun p => p.handle_output v) }
    | none => Except.ok s
  | none =>
    match alookup key s.auto_ports with
    | some _ =>
      match alookup key data with
      | some v =>
        Except.ok
          { s with auto_ports := updateEntry s.auto_ports key (fun p => p.handle_output v) }
      | none => Except.ok s
    | none => Except.error ("Port " ++ key ++ " does not exist")

/-- The whole key loop of `MultiOutputMixin.handle_output`, over the key
list snapshot taken before the loop. -/
def dispatchAll {α : Type} (data : StructuredValue α) (s : MultiState α) :
    List String → Except String (MultiState α)
  | [] => Except.ok s
  | k :: rest =>
    match dispatchKey data s k with
    | Except.error e => Except.error e
    | Except.ok s1 => dispatchAll data s1 rest

/-- Method `MultiOutputMixin.handle_output(data)`: run the key loop over
`list(self.ports.keys()) + list(self.auto_ports.keys())`, then
`super().handle_output(data)` emits the full structured value on the
primary channel (`data` is a dict, never the `None` marker). -/
def MultiOutputMixin.handle_output {α : Type} (s : MultiState α)
    (data : StructuredValue α) : Except String (MultiState α) :=
  match dispatchAll data s (s.ports.map Prod.fst ++ s.auto_ports.map Prod.fst) with
  | Except.error e => Except.error e
  | Except.ok s1 =>
    Except.ok { s1 with out_port := s1.out_port.handle_output (some data) }

/-! ## Association-list lemmas -/

theorem alookup_append {β : Type} (k : String) (m1 m2 : List (String × β)) :
    alookup k (m1 ++ m2)
      = match alookup k m1 with
        | some v => some v
        | none => alookup k m2 := by
  induction m1 with
  | nil => simp [alookup]
  | cons e rest ih =>
    rcases e with ⟨k1, v⟩
    by_cases hk : k1 = k
    · simp [alookup, hk]
    · simp [alookup, hk, ih]

theorem alookup_singleton_self {β : Type} (k : String) (v : β) :
    alookup k [(k, v)] = some v := by
  simp [alookup]

theorem updateEntry_cons_self {β : Type} (k : String) (v : β)
    (rest : List (String × β)) (f : β → β) :
    updateEntry ((k, v) :: rest) k f = (k, f v) :: updateEntry rest k f := by
  simp [updateEntry]

theorem updateEntry_cons_ne {β : Type} (k1 k : String) (v : β)
    (rest : List (String × β)) (f : β → β) (h : ¬ k1 = k) :
    updateEntry ((k1, v) :: rest) k f = (k1, v) :: updateEntry rest k f := by
  simp [updateEntry, h]

theorem alookup_updateEntry_self {β : Type} (m : List (String × β)) (k : String)
    (f : β → β) : alookup k (updateEntry m k f) = (alookup k m).map f := by
  induction m with
  | nil => rfl
  | cons e rest ih =>
    rcases e with ⟨k1, v⟩
    by_cases hk : k1 = k
    · subst hk
      rw [updateEntry_cons_self]
      simp [alookup]
    · rw [updateEntry_cons_ne k1 k v rest f hk]
      simp [alookup, hk, ih]

theorem alookup_updateEntry_ne {β : Type} (m : List (String × β)) (k k' : String)
    (f : β → β) (h : k' ≠ k) : alookup k' (updateEntry m k f) = alookup k' m := by
  induction m with
  | nil => rfl
  | cons e rest ih =>
    rcases e with ⟨k1, v⟩
    by_cases hk : k1 = k
    · subst hk
      have hk1 : ¬ k1 = k' := fun hh => h hh.symm
      rw [updateEntry_cons_self]
      simp [alookup, hk1, ih]
    · rw [updateEntry_cons_ne k1 k v rest f hk]
      by_cases hk1 : k1 = k'
      · subst hk1
        simp [alookup]
      · simp [alookup, hk1, ih]

theorem alookup_updateEntry_isSome {β : Type} (m : List (String × β)) (k k' : String)
    (f : β → β) :
    (alookup k' (updateEntry m k f)).isSome = (alookup k' m).isSome := by
  by_cases h : k' = k
  · subst h; rw [alookup_updateEntry_self]; cases alookup k' m <;> rfl
  · rw [alookup_updateEntry_ne m k k' f h]

theorem alookup_mem_keys {β : Type} (m : List (String × β)) (k : String) (v : β)
    (h : alookup k m = some v) : k ∈ m.map Prod.fst := by
  induction m with
  | nil => simp [alookup] at h
  | cons e rest ih =>
    rcases e with ⟨k1, w⟩
    by_cases hk : k1 = k
    · simp [hk]
    · simp only [alookup, hk, if_false] at h
      simp [ih h]

theorem mem_keys_alookup_isSome {β : Type} (m : List (String × β)) (k : String)
    (h : k ∈ m.map Prod.fst) : (alookup k m).isSome := by
  induction m with
  | nil => simp at h
  | cons e rest ih =>
    rcases e with ⟨k1, w⟩
    by_cases hk : k1 = k
    · simp [alookup, hk]
    · simp only [List.map_cons, List.mem_cons] at h
      rcases h with h | h
      · exact absurd h.symm hk
      · simp [alookup, hk, ih h]

/-- C6: explicitly declaring (`_register_port` with `auto=False`) a port name
already present in the explicitly-declared map raises the naming-conflict
`NameError`, and on that error both port maps are unchanged: the first
declaration's Channel `ch` is still registered under the name and no new
Channel has been created. -/
theorem duplicate_declaration_fails_first_intact (α : Type) (s : MultiState α)
    (port : String) (ch : Port α) (h : alookup port s.ports = some ch) :
    register_port s port false
        = (Except.error ("Port " ++ port ++ " already exists"), s)
      ∧ alookup port (register_port s port false).2.ports = some ch := by
  constructor
  · simp [register_port, h]
  · simp [register_port, h]

/-- Witness for C6 at a concrete state: one port `"a"` already declared. -/
theorem duplicate_declaration_fails_first_intact_witness :
    alookup "a" (MultiState.mk [("a", Port.empty)] [] Port.empty : MultiState Nat).ports
        = some Port.empty
      ∧ (register_port (MultiState.mk [("a", Port.empty)] [] Port.empty : MultiState Nat)
            "a" false
          = (Except.error ("Port " ++ "a" ++ " already exists"),
             MultiState.mk [("a", Port.empty)] [] Port.empty)
        ∧ alookup "a"
            (register_port (MultiState.mk [("a", Port.empty)] [] Port.empty : MultiState Nat)
              "a" false).2.ports = some Port.empty) :=
  ⟨rfl, duplicate_declaration_fails_first_intact Nat _ "a" Port.empty rfl⟩

/-- C7: resolving (`get_port`) a name that was never declared and never
previously resolved auto-creates exactly one fresh Channel, returns it without
raising, and grows only the auto-created map; resolving the same name again
returns the very same Channel out of the unchanged state; and the
missing-port error branch is unreachable — `get_port` succeeds on every state
and every name. -/
theorem get_port_autocreates_exactly_once (α : Type) (s : MultiState α)
    (port : String) (h1 : alookup port s.ports = none)
    (h2 : alookup port s.auto_ports = none) :
    get_port s port
        = Except.ok
            ({ s with auto_ports := s.auto_ports ++ [(port, Port.empty)] }, Port.empty)
      ∧ get_port { s with auto_ports := s.auto_ports ++ [(port, Port.empty)] } port
        = Except.ok
            ({ s with auto_ports := s.auto_ports ++ [(port, Port.empty)] }, Port.empty)
      ∧ ∀ (t : MultiState α) (q : String), ∃ u p, get_port t q = Except.ok (u, p) := by
  have hgrow : alookup port (s.auto_ports ++ [(port, Port.empty (α := α))])
      = some Port.empty := by
    rw [alookup_append, h2, alookup_singleton_self]
  refine ⟨?_, ?_, ?_⟩
  · simp [get_port, h1, h2, register_port, hgrow]
  · rw [get_port]
    simp [h1, hgrow]
  · intro t q
    rcases hp : alookup q t.ports with _ | p
    · rcases ha : alookup q t.auto_ports with _ | p
      · refine ⟨{ t with auto_ports := t.auto_ports ++ [(q, Port.empty)] }, Port.empty, ?_⟩
        have hg : alookup q (t.auto_ports ++ [(q, Port.empty (α := α))])
            = some Port.empty := by
          rw [alookup_append, ha, alookup_singleton_self]
        rw [get_port, hp, ha, register_port]
        simp [ha, hg]
      · exact ⟨t, p, by rw [get_port, hp, ha]⟩
    · exact ⟨t, p, by rw [get_port, hp]⟩

/-! ## The C2 dispatch scenario -/

/-- The C2 scenario: a multi-port layer with declared ports `"a"` and `"b"`
(each carrying one subscriber queue so deliveries are observable), no
auto-created ports, one subscriber on the primary channel. -/
def c2State : MultiState Nat :=
  { ports := [("a", ⟨[[]]⟩), ("b", ⟨[[]]⟩)], auto_ports := [], out_port := ⟨[[]]⟩ }

/-- The structured value `{"a": 1, "c": 2}` of the C2 scenario. -/
def c2Data : StructuredValue Nat := [("a", some 1), ("c", some 2)]

/-- C2 counterexample: dispatching `{"a": 1, "c": 2}` on a layer whose only
ports are the declared `"a"` and `"b"` does not create any port `"c"` —
after `handle_output` neither the declared nor the auto-created map has a
binding for `"c"` (auto-creation happens only inside `get_port`, never during
dispatch), so no port `"c"` exists to have received 2. -/
theorem dispatch_creates_no_auto_port_counterexample :
    (MultiOutputMixin.handle_output c2State c2Data).map
        (fun u => (alookup "c" u.ports, alookup "c" u.auto_ports))
      = Except.ok (none, none) := by
  rfl

/-- C2 amended: with declared ports `{"a","b"}` and no other ports,
dispatching `{"a": 1, "c": 2}` emits 1 on port `"a"`, emits nothing on port
`"b"`, creates no port `"c"` and emits 2 on no named port (key `"c"` is
simply ignored by the key loop, which ranges over existing ports only), and
emits the full value `{"a": 1, "c": 2}` on the layer's primary output
Channel. -/
theorem dispatch_declared_ports_and_primary :
    MultiOutputMixin.handle_output c2State c2Data
      = Except.ok
          { ports := [("a", ⟨[[1]]⟩), ("b", ⟨[[]]⟩)], auto_ports := [],
            out_port := ⟨[[c2Data]]⟩ } := by
  rfl

/-! ## Tracking a key through the dispatch loop (for C10) -/

/-- Iterate a function `n` times. -/
def applyN {β : Type} : Nat → (β → β) → β → β
  | 0, _, x => x
  | n + 1, f, x => applyN n f (f x)

/-- What one occurrence of `name` in the key loop does to the port resolved
for `name`: emit `data[name]` on it when `name in data`, nothing otherwise. -/
def portUpd {α : Type} (data : StructuredValue α) (name : String) (p : Port α) : Port α :=
  match alookup name data with
  | some v => p.handle_output v
  | none => p

/-- Occurrences of `name` in a key list. -/
def keyCount (name : String) : List String → Nat
  | [] => 0
  | k :: rest => keyCount name rest + (if k = name then 1 else 0)

theorem keyCount_append (name : String) (l1 l2 : List String) :
    keyCount name (l1 ++ l2) = keyCount name l1 + keyCount name l2 := by
  induction l1 with
  | nil => simp [keyCount]
  | cons k rest ih => simp [keyCount, ih]; omega

theorem keyCount_eq_zero {name : String} {l : List String} (h : name ∉ l) :
    keyCount name l = 0 := by
  induction l with
  | nil => rfl
  | cons k rest ih =>
    have hk : ¬ k = name := fun hh => h (by simp [hh])
    have hr : name ∉ rest := fun hh => h (List.mem_cons_of_mem _ hh)
    simp [keyCount, hk, ih hr]

theorem keyCount_eq_one {name : String} {l : List String} (d : l.Nodup)
    (h : name ∈ l) : keyCount name l = 1 := by
  induction l with
  | nil => simp at h
  | cons k rest ih =>
    rw [List.nodup_cons] at d
    by_cases hk : k = name
    · subst hk
      simp [keyCount, keyCount_eq_zero d.1]
    · rcases List.mem_cons.mp h with h | h
      · exact absurd h.symm hk
      · simp [keyCount, hk, ih d.2 h]

/-- Running the key loop: the port registered for `name` in the declared map
is hit once per occurrence of `name` among the keys (each hit resolving to
the declared map first), and the binding of `name` in the auto-created map is
never touched — provided every key in the list is bound in one of the two
maps, so the loop's unreachable `NameError` branch is never taken. -/
theorem dispatchAll_tracks_declared {α : Type} (data : StructuredValue α) (name : String) :
    ∀ (keys : List String) (s : MultiState α) (dp : Port α),
      alookup name s.ports = some dp →
      (∀ k ∈ keys, (alookup k s.ports).isSome ∨ (alookup k s.auto_ports).isSome) →
      ∃ u, dispatchAll data s keys = Except.ok u
        ∧ alookup name u.ports
            = some (applyN (keyCount name keys) (portUpd data name) dp)
        ∧ alookup name u.auto_ports = alookup name s.auto_ports := by
  intro keys
  induction keys with
  | nil =>
    intro s dp hdp _
    exact ⟨s, rfl, by simpa [keyCount, applyN] using hdp, rfl⟩
  | cons k rest ih =>
    intro s dp hdp hpres
    have hkmem := hpres k (List.mem_cons_self k rest)
    have hrest : ∀ k' ∈ rest, (alookup k' s.ports).isSome ∨ (alookup k' s.auto_ports).isSome :=
      fun k' hk' => hpres k' (List.mem_cons_of_mem _ hk')
    rcases hkp : alookup k s.ports with _ | p
    · -- `k` is not declared, so it must be auto-created; then `k ≠ name`.
      rcases hka : alookup k s.auto_ports with _ | p
      · rw [hkp, hka] at hkmem
        simp at hkmem
      · have hkname : ¬ k = name := by
          intro hh
          subst hh
          rw [hdp] at hkp
          exact Option.noConfusion hkp
        have hne : name ≠ k := fun hh => hkname hh.symm
        rcases hkd : alookup k data with _ | v
        · have hstep : dispatchKey data s k = Except.ok s := by
            simp [dispatchKey, hkp, hka, hkd]
          obtain ⟨u, hu, h1, h2⟩ := ih s dp hdp hrest
          refine ⟨u, by simp only [dispatchAll, hstep]; exact hu, ?_, h2⟩
          rw [h1]
          simp [keyCount, hkname]
        · set s1 : MultiState α :=
            { s with auto_ports := updateEntry s.auto_ports k (fun p => p.handle_output v) }
            with hs1
          have hstep : dispatchKey data s k = Except.ok s1 := by
            simp [dispatchKey, hkp, hka, hkd, hs1]
          have hdp1 : alookup name s1.ports = some dp := hdp
          have hpres1 : ∀ k' ∈ rest,
              (alookup k' s1.ports).isSome ∨ (alookup k' s1.auto_ports).isSome := by
            intro k' hk'
            rcases hrest k' hk' with h | h
            · exact Or.inl h
            · right
              rw [hs1]
              simpa [alookup_updateEntry_isSome] using h
          obtain ⟨u, hu, h1, h2⟩ := ih s1 dp hdp1 hpres1
          refine ⟨u, by simp only [dispatchAll, hstep]; exact hu, ?_, ?_⟩
          · rw [h1]
            simp [keyCount, hkname]
          · rw [h2, hs1]
            simpa using alookup_updateEntry_ne s.auto_ports k name _ hne
    · -- `k` is declared: the declared port is hit (whether or not `k = name`).
      rcases hkd : alookup k data with _ | v
      · have hstep : dispatchKey data s k = Except.ok s := by
          simp [dispatchKey, hkp, hkd]
        obtain ⟨u, hu, h1, h2⟩ := ih s dp hdp hrest
        refine ⟨u, by simp only [dispatchAll, hstep]; exact hu, ?_, h2⟩
        rw [h1]
        by_cases hkname : k = name
        · subst hkname
          have : portUpd data k dp = dp := by simp [portUpd, hkd]
          simp [keyCount, applyN, this]
        · simp [keyCount, hkname]
      · set s1 : MultiState α :=
          { s with ports := updateEntry s.ports k (fun p => p.handle_output v) }
          with hs1
        have hstep : dispatchKey data s k = Except.ok s1 := by
          simp [dispatchKey, hkp, hkd, hs1]
        have hpres1 : ∀ k' ∈ rest,
            (alookup k' s1.ports).isSome ∨ (alookup k' s1.auto_ports).isSome := by
          intro k' hk'
          rcases hrest k' hk' with h | h
          · left
            rw [hs1]
            simpa [alookup_updateEntry_isSome] using h
          · exact Or.inr h
        by_cases hkname : k = name
        · subst hkname
          have hdp1 : alookup k s1.ports = some (portUpd data k dp) := by
            rw [hs1]
            simp only [alookup_updateEntry_self, hdp, Option.map_some']
            simp [portUpd, hkd]
          obtain ⟨u, hu, h1, h2⟩ := ih s1 (portUpd data k dp) hdp1 hpres1
          refine ⟨u, by simp only [dispatchAll, hstep]; exact hu, ?_, h2⟩
          rw [h1]
          simp [keyCount, applyN]
        · have hne : name ≠ k := fun hh => hkname hh.symm
          have hdp1 : alookup name s1.ports = some dp := by
            rw [hs1]
            simpa using (alookup_updateEntry_ne s.ports k name _ hne).trans hdp
          obtain ⟨u, hu, h1, h2⟩ := ih s1 dp hdp1 hpres1
          refine ⟨u, by simp only [dispatchAll, hstep]; exact hu, ?_, h2⟩
          rw [h1]
          simp [keyCount, hkname]

/-- C10: on a layer where `name` was first auto-created by resolution
(`alookup name s.ports = none`, `alookup name s.auto_ports = some ap`),
explicitly declaring `name` afterwards succeeds — `_register_port` checks only
the explicitly-declared map — leaving `name` bound in both maps (freshly in
the declared map, still to `ap` in the auto map); and on any such state `t`
(each map's keys unique, `name` bound in both), dispatching a structured
value with `name` as a key emits the value twice into the declared port's
subscriber queues — the key loop visits `name` once per map and resolves it
to the declared map both times — while the auto-created port's binding is
left untouched, its subscribers receiving nothing. -/
theorem declare_after_autocreate_double_emit (α : Type) (s t : MultiState α)
    (name : String) (ap dp ap2 : Port α) (data : StructuredValue α) (v : Option α)
    (h1 : alookup name s.ports = none) (h2 : alookup name s.auto_ports = some ap)
    (ht1 : alookup name t.ports = some dp) (ht2 : alookup name t.auto_ports = some ap2)
    (hd1 : (t.ports.map Prod.fst).Nodup) (hd2 : (t.auto_ports.map Prod.fst).Nodup)
    (hv : alookup name data = some v) :
    (register_port s name false
        = (Except.ok (), { s with ports := s.ports ++ [(name, Port.empty)] })
      ∧ alookup name (s.ports ++ [(name, Port.empty (α := α))]) = some Port.empty
      ∧ alookup name
          ({ s with ports := s.ports ++ [(name, Port.empty)] } : MultiState α).auto_ports
        = some ap)
    ∧ ∃ u, MultiOutputMixin.handle_output t data = Except.ok u
        ∧ alookup name u.ports = some ((dp.handle_output v).handle_output v)
        ∧ alookup name u.auto_ports = some ap2 := by
  constructor
  · refine ⟨?_, ?_, h2⟩
    · simp [register_port, h1]
    · rw [alookup_append, h1, alookup_singleton_self]
  · have hpres : ∀ k ∈ t.ports.map Prod.fst ++ t.auto_ports.map Prod.fst,
        (alookup k t.ports).isSome ∨ (alookup k t.auto_ports).isSome := by
      intro k hk
      rcases List.mem_append.mp hk with h | h
      · exact Or.inl (mem_keys_alookup_isSome _ _ h)
      · exact Or.inr (mem_keys_alookup_isSome _ _ h)
    obtain ⟨u0, hu0, hp, ha⟩ :=
      dispatchAll_tracks_declared data name
        (t.ports.map Prod.fst ++ t.auto_ports.map Prod.fst) t dp ht1 hpres
    have hcount : keyCount name (t.ports.map Prod.fst ++ t.auto_ports.map Prod.fst) = 2 := by
      rw [keyCount_append,
        keyCount_eq_one hd1 (alookup_mem_keys _ _ _ ht1),
        keyCount_eq_one hd2 (alookup_mem_keys _ _ _ ht2)]
    rw [hcount] at hp
    refine ⟨{ u0 with out_port := u0.out_port.handle_output (some data) }, ?_, ?_, ?_⟩
    · simp only [MultiOutputMixin.handle_output, hu0]
    · simpa [applyN, portUpd, hv] using hp
    · exact ha.trans ht2

/-- The C10 scenario: `"p"` was auto-created (with one subscriber queue);
`c10t` is the state after also declaring `"p"` and subscribing once to the
declared port. -/
def c10s : MultiState Nat := ⟨[], [("p", ⟨[[]]⟩)], Port.empty⟩

/-- The C10 post-declaration state: `"p"` bound in both maps. -/
def c10t : MultiState Nat := ⟨[("p", ⟨[[]]⟩)], [("p", ⟨[[]]⟩)], Port.empty⟩

/-- The C10 structured value `{"p": 3}`. -/
def c10data : StructuredValue Nat := [("p", some 3)]

/-- Witness for C10 at the concrete scenario above: the declared port's one
subscriber queue receives 3 twice, the auto-created port's queue stays
empty. -/
theorem declare_after_autocreate_double_emit_witness :
    (alookup "p" c10s.ports = none
      ∧ alookup "p" c10s.auto_ports = some ⟨[[]]⟩
      ∧ alookup "p" c10t.ports = some ⟨[[]]⟩
      ∧ alookup "p" c10t.auto_ports = some ⟨[[]]⟩
      ∧ (c10t.ports.map Prod.fst).Nodup
      ∧ (c10t.auto_ports.map Prod.fst).Nodup
      ∧ alookup "p" c10data = some (some 3))
    ∧ ((register_port c10s "p" false
          = (Except.ok (), { c10s with ports := c10s.ports ++ [("p", Port.empty)] })
        ∧ alookup "p" (c10s.ports ++ [("p", Port.empty (α := Nat))]) = some Port.empty
        ∧ alookup "p"
            ({ c10s with ports := c10s.ports ++ [("p", Port.empty)] } : MultiState Nat).auto_ports
          = some ⟨[[]]⟩)
      ∧ ∃ u, MultiOutputMixin.handle_output c10t c10data = Except.ok u
          ∧ alookup "p" u.ports
              = some ((Port.handle_output ⟨[[]]⟩ (some 3)).handle_output (some 3))
          ∧ alookup "p" u.auto_ports = some ⟨[[]]⟩) :=
  ⟨⟨rfl, rfl, rfl, rfl, by decide, by decide, rfl⟩,
    declare_after_autocreate_double_emit Nat c10s c10t "p" ⟨[[]]⟩ ⟨[[]]⟩ ⟨[[]]⟩
      c10data (some 3) rfl rfl rfl rfl (by decide) (by decide) rfl⟩

/-- The C7 scenario: a state with one declared port `"a"` and nothing else;
the name `"x"` was never declared and never resolved. -/
def c7M : MultiState Nat := ⟨[("a", Port.empty)], [], Port.empty⟩

/-- Witness for C7: resolving the fresh name `"x"` on `c7M` auto-creates it,
and resolving again returns the same Channel from the unchanged state. -/
theorem get_port_autocreates_exactly_once_witness :
    (alookup "x" c7M.ports = none ∧ alookup "x" c7M.auto_ports = none)
    ∧ get_port c7M "x"
        = Except.ok
            ({ c7M with auto_ports := c7M.auto_ports ++ [("x", Port.empty)] }, Port.empty)
    ∧ get_port { c7M with auto_ports := c7M.auto_ports ++ [("x", Port.empty)] } "x"
        = Except.ok
            ({ c7M with auto_ports := c7M.auto_ports ++ [("x", Port.empty)] }, Port.empty) :=
  ⟨⟨rfl, rfl⟩,
    (get_port_autocreates_exactly_once Nat c7M "x" rfl rfl).1,
    (get_port_autocreates_exactly_once Nat c7M "x" rfl rfl).2.1⟩

end PyRealTime
